import Mathlib

/-
Verification of the foodgram backend's shopping-list aggregation/export
pipeline, relation-toggle actions, short-code generation and short-link
resolution, against a shallow embedding of the Python/Django source.

Conventions of the embedding:
  * database tables are lists of rows (structures mirroring the Django
    models in backend/recipes/models.py and backend/users/models.py);
  * ORM queries become list operations (filter / join / group / sort);
  * machine integers are Nat/Int; HTTP status codes are Nat;
  * a `transaction.atomic` block is modelled as all-or-nothing: on an
    error the observable table state is the state before the block;
  * Python string operations (.lower(), .strip(), str(int)) are embedded
    at the character-list level so that everything evaluates by `decide`;
  * the datastore collation used by `order_by` is modelled as code-point
    lexicographic order on the name.
-/

deriving instance DecidableEq for Except

/-! Character/string primitives shared by the embedded functions. -/

/-- Code-point lexicographic `≤` on character lists; the embedding of the
datastore's ascending ordering on a text column. -/
def lexLe : List Char → List Char → Bool
  | [], _ => true
  | _ :: _, [] => false
  | a :: as, b :: bs =>
    if a.toNat < b.toNat then true
    else if b.toNat < a.toNat then false
    else lexLe as bs

/-- Totality of the lexicographic comparison. -/
def lexLe_total : ∀ a b : List Char, lexLe a b = true ∨ lexLe b a = true
  | [], _ => Or.inl rfl
  | _ :: _, [] => Or.inr rfl
  | a :: as, b :: bs => by
    rcases Nat.lt_trichotomy a.toNat b.toNat with h | h | h
    · left; simp [lexLe, h]
    · have h1 : ¬ a.toNat < b.toNat := by omega
      have h2 : ¬ b.toNat < a.toNat := by omega
      rcases lexLe_total as bs with ih | ih
      · left; simp [lexLe, h1, h2, ih]
      · right; simp [lexLe, h1, h2, ih]
    · right; simp [lexLe, h]

/-- Transitivity of the lexicographic comparison. -/
def lexLe_trans : ∀ a b c : List Char,
    lexLe a b = true → lexLe b c = true → lexLe a c = true
  | [], _, _, _, _ => rfl
  | _ :: _, [], _, h1, _ => by simp [lexLe] at h1
  | _ :: _, _ :: _, [], _, h2 => by simp [lexLe] at h2
  | a :: as, b :: bs, c :: cs, h1, h2 => by
    simp only [lexLe] at h1 h2 ⊢
    rcases Nat.lt_trichotomy a.toNat b.toNat with hab | hab | hab
    · rcases Nat.lt_trichotomy b.toNat c.toNat with hbc | hbc | hbc
      · simp [show a.toNat < c.toNat by omega]
      · simp [show a.toNat < c.toNat by omega]
      · simp [show ¬ b.toNat < c.toNat by omega, hbc] at h2
    · rcases Nat.lt_trichotomy b.toNat c.toNat with hbc | hbc | hbc
      · simp [show a.toNat < c.toNat by omega]
      · have g1 : ¬ a.toNat < c.toNat := by omega
        have g2 : ¬ c.toNat < a.toNat := by omega
        simp only [if_neg g1, if_neg g2]
        simp only [if_neg (show ¬ a.toNat < b.toNat by omega),
          if_neg (show ¬ b.toNat < a.toNat by omega)] at h1
        simp only [if_neg (show ¬ b.toNat < c.toNat by omega),
          if_neg (show ¬ c.toNat < b.toNat by omega)] at h2
        exact lexLe_trans as bs cs h1 h2
      · simp [show ¬ b.toNat < c.toNat by omega, hbc] at h2
    · simp [show ¬ a.toNat < b.toNat by omega, hab] at h1

/-- Embedding of Python `str.lower()` (ASCII case folding). -/
def lowerStr (s : String) : String := ⟨s.data.map Char.toLower⟩

/-- Embedding of Python `str.strip()`: drop whitespace at both ends. -/
def stripStr (s : String) : String :=
  ⟨((s.data.dropWhile Char.isWhitespace).reverse.dropWhile
      Char.isWhitespace).reverse⟩

/-- A lowercase hexadecimal digit, as produced by `uuid.uuid4().hex`. -/
def isHexDigit (c : Char) : Prop := c.isDigit ∨ ('a' ≤ c ∧ c ≤ 'f')

instance (c : Char) : Decidable (isHexDigit c) := by
  unfold isHexDigit; infer_instance

/-! Data model: rows of the tables declared in backend/recipes/models.py.
Primary/foreign keys are Nat ids. -/

/-- A row of the Ingredient table: name + measurement unit,
with (name, measurement_unit) unique. -/
structure Ingredient where
  id : Nat
  name : String
  measurement_unit : String
deriving DecidableEq

/-- A row of the RecipeIngredient join table: (recipe, ingredient) unique,
`amount` a positive bounded integer. -/
structure RecipeIngredient where
  recipe : Nat
  ingredient : Nat
  amount : Nat
deriving DecidableEq

/-- A row of the ShoppingCart table: (user, recipe) unique. -/
structure ShoppingCart where
  user : Nat
  recipe : Nat
deriving DecidableEq

/-- The slice of the database the shopping-list aggregator reads. -/
structure DB where
  ingredients : List Ingredient
  recipe_ingredients : List RecipeIngredient
  shopping_carts : List ShoppingCart
deriving DecidableEq

/-- One aggregated output row:
`.values(name=F('ingredient__name'), unit=F('ingredient__measurement_unit'))
 .annotate(total=Sum('amount'))`. -/
structure AggRow where
  name : String
  unit : String
  total : Nat
deriving DecidableEq

/-- Database well-formedness: the invariants the datastore constraints
guarantee (referential integrity of RecipeIngredient.ingredient, primary-key
uniqueness, and the Ingredient (name, measurement_unit) unique constraint). -/
def WF (db : DB) : Prop :=
  (∀ ri ∈ db.recipe_ingredients, ∃ ing ∈ db.ingredients, ing.id = ri.ingredient)
  ∧ (db.ingredients.map Ingredient.id).Nodup
  ∧ (db.ingredients.map fun i => (i.name, i.measurement_unit)).Nodup

instance (db : DB) : Decidable (WF db) := by
  unfold WF; infer_instance

/-! Shopping-list aggregation
(RecipeAPIViewSet.export_shopping_list, backend/api/views/recipes.py):
  RecipeIngredient.objects.filter(recipe__shopping_carts__user=user)
    .values(name=F('ingredient__name'), unit=F('ingredient__measurement_unit'))
    .annotate(total=Sum('amount')).order_by('ingredient__name') -/

/-- The SQL join behind `filter(recipe__shopping_carts__user=user)`:
one joined row per (cart row of `u`, RecipeIngredient row of that recipe). -/
def cartJoin (db : DB) (u : Nat) : List RecipeIngredient :=
  (db.shopping_carts.filter fun c => c.user = u).flatMap
    fun c => db.recipe_ingredients.filter fun ri => ri.recipe = c.recipe

/-- The inner join to the Ingredient table (foreign-key lookup by id). -/
def ingredientById (db : DB) (i : Nat) : Option Ingredient :=
  db.ingredients.find? fun ing => ing.id = i

/-- Joined rows keyed by the grouping columns (name, measurement_unit);
rows whose ingredient id dangles are dropped (inner join). -/
def keyedAmounts (db : DB) (u : Nat) : List ((String × String) × Nat) :=
  (cartJoin db u).filterMap fun ri =>
    (ingredientById db ri.ingredient).map fun ing =>
      ((ing.name, ing.measurement_unit), ri.amount)

/-- Ascending order on output rows used by `order_by('ingredient__name')`. -/
def rowLe (a b : AggRow) : Prop := lexLe a.name.data b.name.data = true

instance : DecidableRel rowLe := by
  unfold rowLe; infer_instance

instance : IsTotal AggRow rowLe :=
  ⟨fun a b => lexLe_total a.name.data b.name.data⟩

instance : IsTrans AggRow rowLe :=
  ⟨fun a b c => lexLe_trans a.name.data b.name.data c.name.data⟩

/-- Grouping key of an output row. -/
def aggKey (r : AggRow) : String × String := (r.name, r.unit)

/-- Group total: `SUM(amount)` over the keyed rows of one group. -/
def aggTotal (keyed : List ((String × String) × Nat)) (k : String × String) :
    Nat :=
  ((keyed.filter fun p => p.1 = k).map Prod.snd).sum

/-- One output row of the aggregation, for grouping key `k`. -/
def mkAggRow (keyed : List ((String × String) × Nat)) (k : String × String) :
    AggRow :=
  { name := k.1, unit := k.2, total := aggTotal keyed k }

/-- `GROUP BY name, unit` with `SUM(amount)`, then `ORDER BY name`. -/
def shoppingListRows (db : DB) (u : Nat) : List AggRow :=
  let keyed := keyedAmounts db u
  List.insertionSort rowLe (((keyed.map Prod.fst).dedup).map (mkAggRow keyed))

/-! Recipe create/update: ingredient replacement
(RecipeCreateUpdateSerializer.update and IngredientHandlingMixin,
backend/api/serializers/recipes.py). -/

/-- One INSERT of a RecipeIngredient row, checked against the
`unique_ingredient_per_recipe` constraint on (recipe, ingredient). -/
def insertRI (rows : List RecipeIngredient) (r : RecipeIngredient) :
    Except String (List RecipeIngredient) :=
  if rows.any fun x => x.recipe = r.recipe ∧ x.ingredient = r.ingredient then
    .error "unique_ingredient_per_recipe"
  else .ok (rows ++ [r])

/-- `RecipeIngredient.objects.bulk_create(...)`: insert the new rows in
order; the first constraint violation aborts the statement. -/
def bulk_create : List RecipeIngredient → List RecipeIngredient →
    Except String (List RecipeIngredient)
  | rows, [] => .ok rows
  | rows, r :: rest =>
    match insertRI rows r with
    | .ok rows' => bulk_create rows' rest
    | .error e => .error e

/-- `RecipeCreateUpdateSerializer.update` under `transaction.atomic`: delete
all join rows of the recipe, then bulk-insert the new components
(ingredient id, amount). Returns the error signal and the observable table
state: on an error the transaction rolls back, so the observable state is
the state before the block. -/
def updateRecipeIngredients (rows : List RecipeIngredient) (rid : Nat)
    (components : List (Nat × Nat)) :
    Option String × List RecipeIngredient :=
  let newRows : List RecipeIngredient := components.map fun c =>
    { recipe := rid, ingredient := c.1, amount := c.2 }
  match bulk_create (rows.filter fun r => r.recipe ≠ rid) newRows with
  | .ok final => (none, final)
  | .error e => (some e, rows)

/-! Favorite / shopping-cart toggle
(RecipeAPIViewSet._manage_recipe_action, backend/api/views/recipes.py).
The same handler serves both relations; a relation state is the list of
(user, recipe) rows of the Favorite or ShoppingCart table. -/

inductive Method where
  | post
  | delete
deriving DecidableEq

/-- State seen by `_manage_recipe_action`: the Recipe table's ids and the
relation's (user, recipe) rows. -/
structure RelDB where
  recipes : List Nat
  rel : List (Nat × Nat)
deriving DecidableEq

/-- The spec's NotFound-style signal is the standard 404 status (the one
`get_object_or_404` raises); written from the spec's words for comparison
with what the handler returns. -/
def specNotFoundStatus : Nat := 404

/-- The spec's Conflict-style signal is the standard 409 status; written
from the spec's words for comparison with what the handler returns. -/
def specConflictStatus : Nat := 409

/-- `_manage_recipe_action`: POST validates through a serializer whose
UniqueTogether validator rejects an existing pair with a ValidationError
(HTTP 400); DELETE filters and deletes, answering 400 when nothing was
deleted and 204 otherwise. A missing recipe id is a 404 from
`get_object_or_404`. -/
def manageRecipeAction (db : RelDB) (m : Method) (u rid : Nat) :
    Nat × RelDB :=
  if rid ∉ db.recipes then (404, db)
  else
    match m with
    | .post =>
      if (u, rid) ∈ db.rel then (400, db)
      else (201, { db with rel := (u, rid) :: db.rel })
    | .delete =>
      let deleted := (db.rel.filter fun p => p = (u, rid)).length
      if deleted = 0 then (400, db)
      else (204, { db with rel := db.rel.filter fun p => p ≠ (u, rid) })

/-! Follow creation (FollowCreateSerializer,
backend/api/serializers/followers.py). Both failure modes are raised as
`serializers.ValidationError`, which the framework answers with HTTP 400. -/

inductive FollowError where
  | alreadySubscribed
  | selfFollow
deriving DecidableEq

/-- HTTP status of each follow failure: both are ValidationError (400). -/
def followErrorStatus : FollowError → Nat := fun _ => 400

/-- FollowCreateSerializer validation order (DRF run_validation): the
UniqueTogether validator runs first, then `validate`, which calls
`validate_subscription` rejecting user == author; success inserts the
pair. -/
def followCreate (follows : List (Nat × Nat)) (u a : Nat) :
    Except FollowError (List (Nat × Nat)) :=
  if (u, a) ∈ follows then .error .alreadySubscribed
  else if u = a then .error .selfFollow
  else .ok ((u, a) :: follows)

/-- Observable Follow table after a create attempt (errors insert
nothing). -/
def followCreateState (follows : List (Nat × Nat)) (u a : Nat) :
    List (Nat × Nat) :=
  match followCreate follows u a with
  | .ok s => s
  | .error _ => follows

/-! Short-code generation (Recipe.save, backend/recipes/models.py). -/

/-- Characters the slugify regex `[^\w\s-]` keeps: word characters,
whitespace and hyphens. -/
def slugifyKeep (c : Char) : Bool :=
  c.isAlphanum || c = '_' || c.isWhitespace || c = '-'

/-- A character collapsed by the slugify regex `[-\s]+`. -/
def isSpaceOrDash (c : Char) : Bool := c.isWhitespace || c = '-'

/-- Replace each run of whitespace/hyphens with a single hyphen
(`re.sub(r"[-\s]+", "-", ...)`); the flag tracks being inside a run. -/
def collapseDashes : List Char → Bool → List Char
  | [], _ => []
  | c :: rest, inRun =>
    if isSpaceOrDash c then
      if inRun then collapseDashes rest true
      else '-' :: collapseDashes rest true
    else c :: collapseDashes rest false

/-- Python `.strip("-_")`. -/
def stripDashUnderscore (l : List Char) : List Char :=
  ((l.dropWhile fun c => c = '-' || c = '_').reverse.dropWhile
    fun c => c = '-' || c = '_').reverse

/-- Embedding of django.utils.text.slugify for ASCII-normalizable input:
drop non-ASCII (NFKD + encode('ascii','ignore')), lowercase, keep
`[\w\s-]`, collapse `[-\s]+` runs to '-', strip '-'/'_' at the ends. -/
def slugify (s : String) : String :=
  let ascii := s.data.filter fun c => c.toNat < 128
  let lowered := ascii.map Char.toLower
  let kept := lowered.filter slugifyKeep
  ⟨stripDashUnderscore (collapseDashes kept false)⟩

/-- `slugify(self.name)[:6] or 'recipe'`. -/
def baseSlug (name : String) : String :=
  let s := (slugify name).take 6
  if s = "" then "recipe" else s

/-- One candidate: `f"{base_slug}-{uuid.uuid4().hex[:4]}".lower()`. -/
def mkShortCode (name suffix : String) : String :=
  lowerStr (baseSlug name ++ "-" ++ suffix)

/-- Recipe.save's generation loop: draw random 4-hex suffixes from the
stream until the candidate code is absent from the existing codes
(`while Recipe.objects.filter(short_code=...).exists()`); `none` means the
finite modelled stream ran out. -/
def genShortCode (name : String) (existing : List String) :
    List String → Option String
  | [] => none
  | s :: rest =>
    let code := mkShortCode name s
    if code ∈ existing then genShortCode name existing rest
    else some code

/-- Sequential creation of several recipes, each accumulating its code into
the table before the next save. -/
def createCodes : List (String × List String) → List String →
    Option (List String)
  | [], _ => some []
  | (n, sufs) :: rest, existing =>
    match genShortCode n existing sufs with
    | none => none
    | some c => (createCodes rest (c :: existing)).map (c :: ·)

/-- The short-code format the claim asserts, written from the claim's
words: the slug prefix directly followed by 4 hexadecimal characters (no
separator). -/
def specClaimedCodeFormat (name code : String) : Prop :=
  code.take (baseSlug name).length = baseSlug name
  ∧ (code.drop (baseSlug name).length).length = 4
  ∧ ∀ c ∈ (code.drop (baseSlug name).length).data, isHexDigit c

instance (name code : String) : Decidable (specClaimedCodeFormat name code) := by
  unfold specClaimedCodeFormat; infer_instance

/-! Short-link resolution (resolve_short_link, backend/api/views/redirect.py,
routed as /s/<slug>/ in backend/api/urls.py; redirect_short_link in
backend/api/views/short_link.py is the identical unrouted duplicate). -/

/-- A Recipe row reduced to what the resolver could touch. -/
structure RecipeRow where
  id : Nat
  short_code : String
deriving DecidableEq

/-- Field names of the Recipe model (backend/recipes/models.py). A queryset
keyword must name one of these; otherwise the ORM raises FieldError before
touching any row. The model has `short_code` and no field named `slug`. -/
def recipeFieldNames : List String :=
  ["id", "author", "name", "image", "text", "ingredients",
    "cooking_time", "pub_date", "short_code"]

/-- The lookup keyword the view passes: `get_object_or_404(Recipe,
slug=slug)`. -/
def resolveLookupKeyword : String := "slug"

inductive LookupErr where
  | notFound
  | fieldError
deriving DecidableEq

/-- `get_object_or_404(Recipe, field=value)` for a string-valued lookup:
an unknown field keyword raises FieldError (not caught, surfacing as a
server error); a known keyword filters the rows — the only string-keyed
Recipe field is `short_code`, unique by constraint — and an empty result
raises Http404. -/
def get_object_or_404_recipe (recipes : List RecipeRow) (field : String)
    (value : String) : Except LookupErr RecipeRow :=
  if field ∉ recipeFieldNames then .error .fieldError
  else
    match recipes.filter fun r =>
        if field = "short_code" then r.short_code = value else False with
    | [] => .error .notFound
    | r :: _ => .ok r

/-- `recipe.get_absolute_url()`: the canonical detail location
`reverse('recipe_detail', pk)`. -/
def getAbsoluteUrl (r : RecipeRow) : String :=
  "/recipes/" ++ Nat.repr r.id ++ "/"

inductive ResolveResult where
  | redirect (url : String)
  | notFound
  | fieldError
deriving DecidableEq

/-- resolve_short_link: look the recipe up by the `slug` keyword and
redirect to its detail location; Http404 becomes a not-found response and
FieldError escapes as a server error. -/
def resolve_short_link (recipes : List RecipeRow) (slug : String) :
    ResolveResult :=
  match get_object_or_404_recipe recipes resolveLookupKeyword slug with
  | .ok r => .redirect (getAbsoluteUrl r)
  | .error .notFound => .notFound
  | .error .fieldError => .fieldError

/-! Shopping-list export rendering and dispatch
(backend/api/utils.py and RecipeAPIViewSet.export_shopping_list). -/

/-- A row of the user table (backend/users/models.py), reduced to the
fields the export pipeline reads. -/
structure UserRow where
  id : Nat
  username : String
  first_name : String
  last_name : String
deriving DecidableEq

/-- Django AbstractUser.get_full_name(): `f"{first} {last}".strip()`. -/
def get_full_name (u : UserRow) : String :=
  stripStr (u.first_name ++ " " ++ u.last_name)

/-- `user.get_full_name() or user.username` (Python `or` falls back on the
empty string). -/
def displayName (u : UserRow) : String :=
  if get_full_name u = "" then u.username else get_full_name u

/-- Python `'\n'.join(...)`. -/
def joinLines : List String → String
  | [] => ""
  | [x] => x
  | x :: y :: rest => x ++ "\n" ++ joinLines (y :: rest)

structure TextResponse where
  body : String
  content_type : String
  content_disposition : String
deriving DecidableEq

/-- One text line: `f"{item['name']} ({item['unit']}) — {item['total']}"`. -/
def shoppingItemLine (i : AggRow) : String :=
  i.name ++ " (" ++ i.unit ++ ") — " ++ Nat.repr i.total

/-- generate_text_shopping_list: header line (ending in a newline), a line
of '=' of the stripped header's length (ending in a newline), one line per
ingredient, all joined with newlines. -/
def generate_text_shopping_list (components : List AggRow) (user : UserRow) :
    TextResponse :=
  let header := "Shopping list for user: " ++ displayName user ++ "\n"
  let lines := [header,
    String.mk (List.replicate (stripStr header).length '=') ++ "\n"]
    ++ components.map shoppingItemLine
  { body := joinLines lines,
    content_type := "text/plain",
    content_disposition := "attachment; filename=\"shopping_list.txt\"" }

structure PdfResponse where
  title : String
  items : List String
  content_type : String
  content_disposition : String
deriving DecidableEq

/-- One paged-document paragraph:
`f"<b>{item['name']}</b> ({item['unit']}) — {item['total']}"`. -/
def pdfItemText (i : AggRow) : String :=
  "<b>" ++ i.name ++ "</b> (" ++ i.unit ++ ") — " ++ Nat.repr i.total

/-- generate_pdf_shopping_list, modelled as the paragraph texts reportlab
is asked to lay out. -/
def generate_pdf_shopping_list (components : List AggRow) (user : UserRow) :
    PdfResponse :=
  { title := "Shopping list: " ++ displayName user,
    items := components.map pdfItemText,
    content_type := "application/pdf",
    content_disposition := "attachment; filename=\"shopping_list.pdf\"" }

inductive ExportResponse where
  | jsonMessage (message : String) (status : Nat)
  | txt (resp : TextResponse)
  | pdf (resp : PdfResponse)
deriving DecidableEq

/-- RecipeAPIViewSet.export_shopping_list: aggregate the cart; an empty
result answers 200 with an explicit message; otherwise
`request.query_params.get('format', 'pdf')` selects the renderer. -/
def export_shopping_list (db : DB) (user : UserRow)
    (formatParam : Option String) : ExportResponse :=
  let ingredients := shoppingListRows db user.id
  if ingredients.isEmpty then .jsonMessage "Shopping list is empty" 200
  else
    let export_format := formatParam.getD "pdf"
    if export_format = "txt" then
      .txt (generate_text_shopping_list ingredients user)
    else .pdf (generate_pdf_shopping_list ingredients user)

/-- The text-body layout the claim asserts, written from the claim's words:
header line, separator line, then one line per ingredient, joined by
single newlines (no blank lines). -/
def specClaimedTextBody (components : List AggRow) (user : UserRow) :
    String :=
  let hdr := "Shopping list for user: " ++ displayName user
  joinLines ([hdr, String.mk (List.replicate hdr.length '=')]
    ++ components.map shoppingItemLine)

/-! Cooking-time validation
(RecipeValidationMixin.validate_cooking_time,
backend/api/serializers/recipes.py; this serializer-level check is what the
API enforces on create/update input). -/

/-- validate_cooking_time: rejects below 1 and above 1000. -/
def validate_cooking_time (duration : Int) : Except String Int :=
  if duration < 1 then .error "Cooking time must be at least 1 minute"
  else if duration > 1000 then .error "Cooking time is too long"
  else .ok duration

/-- Concrete database realizing the spec's worked example: cart holds
recipe 1 (flour 200) and recipe 2 (flour 150, sugar 100). -/
def exDB : DB :=
  { ingredients := [⟨1, "flour", "g"⟩, ⟨2, "sugar", "g"⟩],
    recipe_ingredients := [⟨1, 1, 200⟩, ⟨2, 1, 150⟩, ⟨2, 2, 100⟩],
    shopping_carts := [⟨7, 1⟩, ⟨7, 2⟩] }

example :
    shoppingListRows
      { ingredients := [⟨1, "flour", "g"⟩, ⟨2, "sugar", "g"⟩],
        recipe_ingredients := [⟨1, 1, 200⟩, ⟨2, 1, 150⟩, ⟨2, 2, 100⟩],
        shopping_carts := [⟨7, 1⟩, ⟨7, 2⟩] } 7
    = [⟨"flour", "g", 350⟩, ⟨"sugar", "g", 100⟩] := by decide

theorem mem_cartJoin_sub {db : DB} {u : Nat} {ri : RecipeIngredient}
    (h : ri ∈ cartJoin db u) : ri ∈ db.recipe_ingredients := by
  unfold cartJoin at h
  rcases List.mem_flatMap.1 h with ⟨c, _, hri⟩
  exact (List.mem_filter.1 hri).1

theorem ingredientById_eq {db : DB}
    (hids : (db.ingredients.map Ingredient.id).Nodup) {i : Nat}
    {ing : Ingredient} (hing : ing ∈ db.ingredients) (hid : ing.id = i) :
    ingredientById db i = some ing := by
  unfold ingredientById
  have h1 : (db.ingredients.find? fun x => x.id = i).isSome := by
    exact List.find?_isSome.2 ⟨ing, hing, by simp [hid]⟩
  obtain ⟨ing', h2⟩ := Option.isSome_iff_exists.1 h1
  have h3 := List.find?_some h2
  have h4 := List.mem_of_find?_eq_some h2
  simp only [decide_eq_true_eq] at h3
  have h5 : ing' = ing :=
    List.inj_on_of_nodup_map hids h4 hing (by rw [h3, hid])
  rw [h2, h5]

theorem keyed_filter_sum {db : DB} (hwf : WF db) {ing : Ingredient}
    (hing : ing ∈ db.ingredients) :
    ∀ L : List RecipeIngredient, (∀ x ∈ L, x ∈ db.recipe_ingredients) →
      (((L.filterMap fun ri => (ingredientById db ri.ingredient).map
            fun i => ((i.name, i.measurement_unit), ri.amount)).filter
          fun p => p.1 = (ing.name, ing.measurement_unit)).map Prod.snd).sum
        = ((L.filter fun ri => ri.ingredient = ing.id).map
            RecipeIngredient.amount).sum := by
  intro L
  induction L with
  | nil => intro _; rfl
  | cons ri L ih =>
    intro hL
    have hri : ri ∈ db.recipe_ingredients := hL ri (by simp)
    obtain ⟨ing₀, hmem₀, hid₀⟩ := hwf.1 ri hri
    have hfind : ingredientById db ri.ingredient = some ing₀ :=
      ingredientById_eq hwf.2.1 hmem₀ hid₀
    have hL' : ∀ x ∈ L, x ∈ db.recipe_ingredients :=
      fun x hx => hL x (by simp [hx])
    by_cases hcase : ri.ingredient = ing.id
    · have heq : ing₀ = ing :=
        List.inj_on_of_nodup_map hwf.2.1 hmem₀ hing (by rw [hid₀, hcase])
      subst heq
      simp only [List.filterMap_cons, hfind]
      simp [hcase, ih hL']
    · have hne : ing₀ ≠ ing := fun he => hcase (by rw [← hid₀, he])
      have hkeyne :
          ¬ ((ing₀.name, ing₀.measurement_unit)
              = (ing.name, ing.measurement_unit)) := fun hk =>
        hne (List.inj_on_of_nodup_map hwf.2.2 hmem₀ hing hk)
      simp only [List.filterMap_cons, hfind]
      simp [hcase, hkeyne, ih hL']

theorem key_mem_keyed_iff {db : DB} {u : Nat} (hwf : WF db)
    {ing : Ingredient} (hing : ing ∈ db.ingredients) :
    (ing.name, ing.measurement_unit) ∈ (keyedAmounts db u).map Prod.fst
      ↔ ∃ ri ∈ cartJoin db u, ri.ingredient = ing.id := by
  constructor
  · intro h
    rcases List.mem_map.1 h with ⟨p, hp, hpk⟩
    rcases List.mem_filterMap.1 hp with ⟨ri, hriJ, hfr⟩
    rcases Option.map_eq_some'.1 hfr with ⟨ing₀, hfind, hp₀⟩
    have hm : ing₀ ∈ db.ingredients :=
      List.mem_of_find?_eq_some hfind
    have hid := List.find?_some hfind
    simp only [decide_eq_true_eq] at hid
    have hk : (ing₀.name, ing₀.measurement_unit)
        = (ing.name, ing.measurement_unit) := by
      rw [← hp₀] at hpk; exact hpk
    have heq : ing₀ = ing :=
      List.inj_on_of_nodup_map hwf.2.2 hm hing hk
    exact ⟨ri, hriJ, by rw [← hid, heq]⟩
  · rintro ⟨ri, hriJ, hri_id⟩
    have hri : ri ∈ db.recipe_ingredients := mem_cartJoin_sub hriJ
    obtain ⟨ing₀, hmem₀, hid₀⟩ := hwf.1 ri hri
    have hfind : ingredientById db ri.ingredient = some ing₀ :=
      ingredientById_eq hwf.2.1 hmem₀ hid₀
    have heq : ing₀ = ing :=
      List.inj_on_of_nodup_map hwf.2.1 hmem₀ hing (by rw [hid₀, hri_id])
    refine List.mem_map.2
      ⟨((ing.name, ing.measurement_unit), ri.amount),
        List.mem_filterMap.2 ⟨ri, hriJ, ?_⟩, rfl⟩
    rw [hfind, heq]; rfl

/-- C1: for every user and shopping-cart state, the aggregator returns one
row per distinct ingredient occurring in a cart recipe, with total equal to
the sum of `amount` over all (cart-recipe, ingredient) join rows for that
ingredient, and the rows sorted ascending by ingredient name. -/
theorem shopping_list_aggregation_correct (db : DB) (u : Nat) (hwf : WF db) :
    List.Sorted rowLe (shoppingListRows db u)
    ∧ ((shoppingListRows db u).map aggKey).Nodup
    ∧ ∀ ing ∈ db.ingredients,
        ((∃ r ∈ shoppingListRows db u,
            r.name = ing.name ∧ r.unit = ing.measurement_unit)
          ↔ ∃ ri ∈ cartJoin db u, ri.ingredient = ing.id)
        ∧ ∀ r ∈ shoppingListRows db u,
            r.name = ing.name → r.unit = ing.measurement_unit →
            r.total = (((cartJoin db u).filter fun ri =>
                ri.ingredient = ing.id).map RecipeIngredient.amount).sum := by
  have hperm : (shoppingListRows db u).Perm
      (((keyedAmounts db u).map Prod.fst).dedup.map
        (mkAggRow (keyedAmounts db u))) := by
    unfold shoppingListRows; exact List.perm_insertionSort _ _
  have hrowskeys : ((((keyedAmounts db u).map Prod.fst).dedup.map
      (mkAggRow (keyedAmounts db u))).map aggKey)
      = ((keyedAmounts db u).map Prod.fst).dedup := by
    rw [List.map_map]
    refine (List.map_congr_left ?_).trans (List.map_id _)
    intro k _
    show (k.1, k.2) = k
    exact Prod.mk.eta
  refine ⟨?_, ?_, ?_⟩
  · unfold shoppingListRows; exact List.sorted_insertionSort rowLe _
  · rw [(hperm.map aggKey).nodup_iff, hrowskeys]
    exact List.nodup_dedup _
  · intro ing hing
    constructor
    · constructor
      · rintro ⟨r, hr, hn, hu⟩
        have hr' := hperm.mem_iff.1 hr
        rcases List.mem_map.1 hr' with ⟨k, hk, hkr⟩
        have hkey : k = (ing.name, ing.measurement_unit) := by
          have h1 : k.1 = ing.name := by rw [← hkr] at hn; exact hn
          have h2 : k.2 = ing.measurement_unit := by
            rw [← hkr] at hu; exact hu
          rw [← h1, ← h2]
        rw [hkey, List.mem_dedup] at hk
        exact (key_mem_keyed_iff hwf hing).1 hk
      · intro hri
        have hk : (ing.name, ing.measurement_unit)
            ∈ ((keyedAmounts db u).map Prod.fst).dedup :=
          List.mem_dedup.2 ((key_mem_keyed_iff hwf hing).2 hri)
        refine ⟨mkAggRow (keyedAmounts db u)
            (ing.name, ing.measurement_unit),
          hperm.mem_iff.2 (List.mem_map.2 ⟨_, hk, rfl⟩), rfl, rfl⟩
    · intro r hr hn hu
      have hr' := hperm.mem_iff.1 hr
      rcases List.mem_map.1 hr' with ⟨k, _, hkr⟩
      have hkey : k = (ing.name, ing.measurement_unit) := by
        have h1 : k.1 = ing.name := by rw [← hkr] at hn; exact hn
        have h2 : k.2 = ing.measurement_unit := by
          rw [← hkr] at hu; exact hu
        rw [← h1, ← h2]
      have htot : r.total = aggTotal (keyedAmounts db u)
          (ing.name, ing.measurement_unit) := by
        rw [← hkr, hkey]; rfl
      rw [htot]
      exact keyed_filter_sum hwf hing (cartJoin db u)
        (fun x hx => mem_cartJoin_sub hx)

theorem shopping_list_aggregation_correct_witness :
    List.Sorted rowLe (shoppingListRows exDB 7)
    ∧ ((shoppingListRows exDB 7).map aggKey).Nodup
    ∧ ∀ ing ∈ exDB.ingredients,
        ((∃ r ∈ shoppingListRows exDB 7,
            r.name = ing.name ∧ r.unit = ing.measurement_unit)
          ↔ ∃ ri ∈ cartJoin exDB 7, ri.ingredient = ing.id)
        ∧ ∀ r ∈ shoppingListRows exDB 7,
            r.name = ing.name → r.unit = ing.measurement_unit →
            r.total = (((cartJoin exDB 7).filter fun ri =>
                ri.ingredient = ing.id).map RecipeIngredient.amount).sum :=
  shopping_list_aggregation_correct exDB 7 (by decide)


theorem insertRI_ok {rows : List RecipeIngredient} {r : RecipeIngredient}
    {rows' : List RecipeIngredient} (h : insertRI rows r = .ok rows') :
    rows' = rows ++ [r] := by
  unfold insertRI at h
  split at h
  · simp at h
  · injection h with h2
    exact h2.symm

theorem bulk_create_ok :
    ∀ (newRows rows final : List RecipeIngredient),
      bulk_create rows newRows = .ok final → final = rows ++ newRows
  | [], rows, final, h => by
    simp only [bulk_create, Except.ok.injEq] at h
    simp [← h]
  | r :: rest, rows, final, h => by
    unfold bulk_create at h
    cases hi : insertRI rows r with
    | error e => rw [hi] at h; simp at h
    | ok rows' =>
      rw [hi] at h
      have h2 := insertRI_ok hi
      subst h2
      have h3 := bulk_create_ok rest (rows ++ [r]) final h
      simp [h3]

theorem updateRecipeIngredients_ok {rows : List RecipeIngredient}
    {rid : Nat} {components : List (Nat × Nat)}
    {final : List RecipeIngredient}
    (hb : bulk_create (rows.filter fun r => r.recipe ≠ rid)
        (components.map fun c =>
          ({ recipe := rid, ingredient := c.1, amount := c.2 }
            : RecipeIngredient)) = .ok final) :
    updateRecipeIngredients rows rid components = (none, final) := by
  simp only [updateRecipeIngredients]
  rw [hb]

theorem updateRecipeIngredients_err {rows : List RecipeIngredient}
    {rid : Nat} {components : List (Nat × Nat)} {e : String}
    (hb : bulk_create (rows.filter fun r => r.recipe ≠ rid)
        (components.map fun c =>
          ({ recipe := rid, ingredient := c.1, amount := c.2 }
            : RecipeIngredient)) = .error e) :
    updateRecipeIngredients rows rid components = (some e, rows) := by
  simp only [updateRecipeIngredients]
  rw [hb]

theorem filter_self_append_new (rows : List RecipeIngredient) (rid : Nat)
    (components : List (Nat × Nat)) :
    (((rows.filter fun r => r.recipe ≠ rid)
        ++ components.map fun c =>
          ({ recipe := rid, ingredient := c.1, amount := c.2 }
            : RecipeIngredient)).filter fun r => r.recipe = rid)
      = components.map fun c =>
          ({ recipe := rid, ingredient := c.1, amount := c.2 }
            : RecipeIngredient) := by
  rw [List.filter_append]
  have ha : ((rows.filter fun r => r.recipe ≠ rid).filter
      fun r => r.recipe = rid) = [] := by
    rw [List.filter_eq_nil_iff]
    intro a ha
    simp only [List.mem_filter, decide_eq_true_eq] at ha
    simp [ha.2]
  have hb2 : ((components.map fun c =>
      ({ recipe := rid, ingredient := c.1, amount := c.2 }
        : RecipeIngredient)).filter fun r => r.recipe = rid)
      = components.map fun c =>
        ({ recipe := rid, ingredient := c.1, amount := c.2 }
          : RecipeIngredient) := by
    rw [List.filter_eq_self]
    intro a ha
    rcases List.mem_map.1 ha with ⟨c, _, hc⟩
    simp [← hc]
  rw [ha, hb2, List.nil_append]

theorem filter_other_append_new (rows : List RecipeIngredient) (rid : Nat)
    (components : List (Nat × Nat)) :
    (((rows.filter fun r => r.recipe ≠ rid)
        ++ components.map fun c =>
          ({ recipe := rid, ingredient := c.1, amount := c.2 }
            : RecipeIngredient)).filter fun r => r.recipe ≠ rid)
      = rows.filter fun r => r.recipe ≠ rid := by
  rw [List.filter_append]
  have ha : ((rows.filter fun r => r.recipe ≠ rid).filter
      fun r => r.recipe ≠ rid) = rows.filter fun r => r.recipe ≠ rid := by
    rw [List.filter_eq_self]
    intro a ha
    exact (List.mem_filter.1 ha).2
  have hb2 : ((components.map fun c =>
      ({ recipe := rid, ingredient := c.1, amount := c.2 }
        : RecipeIngredient)).filter fun r => r.recipe ≠ rid) = [] := by
    rw [List.filter_eq_nil_iff]
    intro a ha
    rcases List.mem_map.1 ha with ⟨c, _, hc⟩
    simp [← hc]
  rw [ha, hb2, List.append_nil]

/-- C2: a successful recipe update leaves exactly the new (ingredient,
amount) rows for the recipe and touches no other recipe's rows; a failed
update leaves the table as it was; the observable state is never a partial
write (old rows deleted, new rows absent). -/
theorem recipe_update_replaces_ingredients
    (rows : List RecipeIngredient) (rid : Nat)
    (components : List (Nat × Nat)) :
    ((updateRecipeIngredients rows rid components).1 = none →
      ((updateRecipeIngredients rows rid components).2.filter
          fun r => r.recipe = rid)
        = components.map (fun c =>
            ({ recipe := rid, ingredient := c.1, amount := c.2 }
              : RecipeIngredient))
      ∧ ((updateRecipeIngredients rows rid components).2.filter
          fun r => r.recipe ≠ rid)
        = rows.filter fun r => r.recipe ≠ rid)
    ∧ ((updateRecipeIngredients rows rid components).1 ≠ none →
      (updateRecipeIngredients rows rid components).2 = rows)
    ∧ ((updateRecipeIngredients rows rid components).2 = rows
      ∨ (updateRecipeIngredients rows rid components).2
          = (rows.filter fun r => r.recipe ≠ rid)
            ++ components.map (fun c =>
              ({ recipe := rid, ingredient := c.1, amount := c.2 }
                : RecipeIngredient))) := by
  cases hb : bulk_create (rows.filter fun r => r.recipe ≠ rid)
      (components.map fun c =>
        ({ recipe := rid, ingredient := c.1, amount := c.2 }
          : RecipeIngredient)) with
  | error e =>
    rw [updateRecipeIngredients_err hb]
    exact ⟨fun hc => absurd hc (by simp), fun _ => rfl, Or.inl rfl⟩
  | ok final =>
    have hfin := bulk_create_ok _ _ _ hb
    subst hfin
    rw [updateRecipeIngredients_ok hb]
    exact ⟨fun _ => ⟨filter_self_append_new rows rid components,
        filter_other_append_new rows rid components⟩,
      fun hne => absurd rfl hne, Or.inr rfl⟩

theorem recipe_update_replaces_ingredients_witness :
    (((updateRecipeIngredients [⟨1, 5, 10⟩, ⟨2, 6, 20⟩] 1 [(7, 30)]).2.filter
        fun r => r.recipe = 1)
      = [(7, 30)].map (fun c =>
          ({ recipe := 1, ingredient := c.1, amount := c.2 }
            : RecipeIngredient))
      ∧ ((updateRecipeIngredients [⟨1, 5, 10⟩, ⟨2, 6, 20⟩] 1
          [(7, 30)]).2.filter fun r => r.recipe ≠ 1)
        = [⟨1, 5, 10⟩, ⟨2, 6, 20⟩].filter fun r => r.recipe ≠ 1)
    ∧ (updateRecipeIngredients [⟨1, 5, 10⟩] 1 [(7, 30), (7, 40)]).2
        = [⟨1, 5, 10⟩] :=
  ⟨(recipe_update_replaces_ingredients [⟨1, 5, 10⟩, ⟨2, 6, 20⟩] 1
      [(7, 30)]).1 (by decide),
    (recipe_update_replaces_ingredients [⟨1, 5, 10⟩] 1
      [(7, 30), (7, 40)]).2.1 (by decide)⟩

theorem length_filter_eq_one_of_nodup {α : Type} [DecidableEq α] :
    ∀ (l : List α) (x : α), l.Nodup → x ∈ l →
      (l.filter fun p => p = x).length = 1
  | [], _, _, hx => absurd hx (List.not_mem_nil _)
  | a :: l, x, hnd, hx => by
    rcases List.nodup_cons.1 hnd with ⟨hal, hl⟩
    rcases eq_or_ne a x with h | h
    · subst h
      rw [List.filter_cons_of_pos (by simp)]
      have hnil : (l.filter fun p => p = a) = [] := by
        rw [List.filter_eq_nil_iff]
        intro b hb
        simp only [decide_eq_true_eq]
        intro hba
        exact hal (hba ▸ hb)
      simp [hnil]
    · have hx' : x ∈ l := by
        rcases List.mem_cons.1 hx with h' | h'
        · exact absurd h'.symm h
        · exact h'
      rw [List.filter_cons_of_neg (by simp [h])]
      exact length_filter_eq_one_of_nodup l x hl hx'

theorem length_filter_ne_of_nodup {α : Type} [DecidableEq α] :
    ∀ (l : List α) (x : α), l.Nodup → x ∈ l →
      (l.filter fun p => p ≠ x).length + 1 = l.length
  | [], _, _, hx => absurd hx (List.not_mem_nil _)
  | a :: l, x, hnd, hx => by
    rcases List.nodup_cons.1 hnd with ⟨hal, hl⟩
    rcases eq_or_ne a x with h | h
    · subst h
      rw [List.filter_cons_of_neg (by simp)]
      have hself : (l.filter fun p => p ≠ a) = l := by
        rw [List.filter_eq_self]
        intro b hb
        have hba : b ≠ a := fun hba => hal (hba ▸ hb)
        simp [hba]
      rw [hself, List.length_cons]
    · have hx' : x ∈ l := by
        rcases List.mem_cons.1 hx with h' | h'
        · exact absurd h'.symm h
        · exact h'
      rw [List.filter_cons_of_pos (by simp [h])]
      have ih := length_filter_ne_of_nodup l x hl hx'
      simp only [List.length_cons]
      omega

/-- C3 counterexample: removing a missing favorite/cart pair answers 400
(validation-style), not the 404 NotFound-style signal, and adding an
existing pair answers 400, not the 409 Conflict-style signal. -/
theorem relation_toggle_counterexample :
    (manageRecipeAction ⟨[1], []⟩ .delete 1 1).1 ≠ specNotFoundStatus
    ∧ (manageRecipeAction ⟨[1], [(1, 1)]⟩ .post 1 1).1 ≠ specConflictStatus
    ∧ (manageRecipeAction ⟨[1], []⟩ .delete 1 1).1 = 400
    ∧ (manageRecipeAction ⟨[1], [(1, 1)]⟩ .post 1 1).1 = 400 := by decide

/-- C3 amended: for an existing recipe, adding an existing pair fails with
HTTP 400 leaving the relation unchanged; removing a missing pair fails
with HTTP 400 leaving the relation unchanged; removing an existing pair
answers 204 and deletes exactly one record. -/
theorem relation_toggle_behavior (db : RelDB) (u rid : Nat)
    (hnd : db.rel.Nodup) (hrec : rid ∈ db.recipes) :
    ((u, rid) ∈ db.rel →
      manageRecipeAction db .post u rid = (400, db))
    ∧ ((u, rid) ∉ db.rel →
      manageRecipeAction db .delete u rid = (400, db))
    ∧ ((u, rid) ∈ db.rel →
      (manageRecipeAction db .delete u rid).1 = 204
      ∧ (db.rel.filter fun p => p = (u, rid)).length = 1
      ∧ (manageRecipeAction db .delete u rid).2.rel
          = db.rel.filter (fun p => p ≠ (u, rid))
      ∧ ((manageRecipeAction db .delete u rid).2.rel).length + 1
          = db.rel.length) := by
  refine ⟨?_, ?_, ?_⟩
  · intro h
    simp [manageRecipeAction, hrec, h]
  · intro h
    have hz : (db.rel.filter fun p => p = (u, rid)) = [] := by
      rw [List.filter_eq_nil_iff]
      intro a ha
      simp only [decide_eq_true_eq]
      intro he
      exact h (he ▸ ha)
    simp [manageRecipeAction, hrec, hz]
  · intro h
    have h1 := length_filter_eq_one_of_nodup db.rel (u, rid) hnd h
    have h2 := length_filter_ne_of_nodup db.rel (u, rid) hnd h
    have hne : ¬ (db.rel.filter fun p => p = (u, rid)).length = 0 := by
      omega
    have hres : manageRecipeAction db .delete u rid
        = (204, { db with rel := db.rel.filter fun p => p ≠ (u, rid) }) := by
      simp [manageRecipeAction, hrec, hne]
    rw [hres]
    exact ⟨rfl, h1, rfl, h2⟩

theorem relation_toggle_behavior_witness :
    ((1, 1) ∈ (⟨[1], [(1, 1)]⟩ : RelDB).rel →
      manageRecipeAction ⟨[1], [(1, 1)]⟩ .post 1 1
        = (400, ⟨[1], [(1, 1)]⟩))
    ∧ ((1, 1) ∉ (⟨[1], [(1, 1)]⟩ : RelDB).rel →
      manageRecipeAction ⟨[1], [(1, 1)]⟩ .delete 1 1
        = (400, ⟨[1], [(1, 1)]⟩))
    ∧ ((1, 1) ∈ (⟨[1], [(1, 1)]⟩ : RelDB).rel →
      (manageRecipeAction ⟨[1], [(1, 1)]⟩ .delete 1 1).1 = 204
      ∧ ((⟨[1], [(1, 1)]⟩ : RelDB).rel.filter
          fun p => p = (1, 1)).length = 1
      ∧ (manageRecipeAction ⟨[1], [(1, 1)]⟩ .delete 1 1).2.rel
          = (⟨[1], [(1, 1)]⟩ : RelDB).rel.filter (fun p => p ≠ (1, 1))
      ∧ ((manageRecipeAction ⟨[1], [(1, 1)]⟩ .delete 1 1).2.rel).length + 1
          = (⟨[1], [(1, 1)]⟩ : RelDB).rel.length) :=
  relation_toggle_behavior ⟨[1], [(1, 1)]⟩ 1 1 (by decide) (by decide)

/-- C5: the routed short-link resolver queries the Recipe model with the
keyword `slug`, which names no Recipe field, so every request raises
FieldError (a server error) — it never redirects and never answers 404,
even when a recipe with the matching short code exists. -/
theorem resolve_short_link_always_field_error
    (recipes : List RecipeRow) (slug : String) :
    resolve_short_link recipes slug = .fieldError := by
  have h : resolveLookupKeyword ∉ recipeFieldNames := by decide
  simp [resolve_short_link, get_object_or_404_recipe, h]

/-- C7: a self-follow attempt fails with a ValidationError-backed signal
(HTTP 400) regardless of prior relation state, and never inserts a row. -/
theorem self_follow_always_validation
    (follows : List (Nat × Nat)) (u : Nat) :
    (∃ e, followCreate follows u u = .error e ∧ followErrorStatus e = 400)
    ∧ followCreateState follows u u = follows
    ∧ ∀ s, followCreate follows u u ≠ .ok s := by
  by_cases h : (u, u) ∈ follows
  · exact ⟨⟨.alreadySubscribed, by simp [followCreate, h], rfl⟩,
      by simp [followCreateState, followCreate, h],
      fun s hs => by simp [followCreate, h] at hs⟩
  · exact ⟨⟨.selfFollow, by simp [followCreate, h], rfl⟩,
      by simp [followCreateState, followCreate, h],
      fun s hs => by simp [followCreate, h] at hs⟩

/-- C10: the serializer-level cooking-time validation rejects values below
1 or above 1000 and accepts every integer in [1, 1000]. -/
theorem cooking_time_validation (t : Int) :
    (t < 1 ∨ 1000 < t → ∃ m, validate_cooking_time t = .error m)
    ∧ (1 ≤ t → t ≤ 1000 → validate_cooking_time t = .ok t) := by
  constructor
  · intro h
    by_cases h1 : t < 1
    · exact ⟨"Cooking time must be at least 1 minute",
        by simp [validate_cooking_time, h1]⟩
    · have h2 : t > 1000 := by omega
      exact ⟨"Cooking time is too long",
        by simp [validate_cooking_time, h1, h2]⟩
  · intro h1 h2
    simp [validate_cooking_time, show ¬ t < 1 by omega,
      show ¬ t > 1000 by omega]

theorem cooking_time_validation_witness :
    (∃ m, validate_cooking_time 1001 = .error m)
    ∧ validate_cooking_time 1000 = .ok 1000 :=
  ⟨(cooking_time_validation 1001).1 (by decide),
    (cooking_time_validation 1000).2 (by decide) (by decide)⟩

theorem genShortCode_spec :
    ∀ (sufs : List String) (name : String) (existing : List String)
      (code : String), genShortCode name existing sufs = some code →
      code ∉ existing ∧ ∃ s ∈ sufs, code = mkShortCode name s
  | [], _, _, _, h => by simp [genShortCode] at h
  | s :: rest, name, existing, code, h => by
    simp only [genShortCode] at h
    by_cases hc : mkShortCode name s ∈ existing
    · rw [if_pos hc] at h
      obtain ⟨h1, t, ht, heq⟩ := genShortCode_spec rest name existing code h
      exact ⟨h1, t, List.mem_cons_of_mem _ ht, heq⟩
    · rw [if_neg hc] at h
      injection h with h2
      subst h2
      exact ⟨hc, s, List.mem_cons_self _ _, rfl⟩

theorem createCodes_nodup :
    ∀ (specs : List (String × List String)) (existing codes : List String),
      existing.Nodup → createCodes specs existing = some codes →
      (codes ++ existing).Nodup
  | [], existing, codes, hnd, h => by
    simp only [createCodes, Option.some.injEq] at h
    rw [← h]
    simpa using hnd
  | (n, sufs) :: rest, existing, codes, hnd, h => by
    simp only [createCodes] at h
    cases hg : genShortCode n existing sufs with
    | none => rw [hg] at h; simp at h
    | some c =>
      rw [hg] at h
      rcases Option.map_eq_some'.1 h with ⟨cs, hcs, hcodes⟩
      have hcnot : c ∉ existing := (genShortCode_spec sufs n existing c hg).1
      have hnd' : (c :: existing).Nodup := List.nodup_cons.2 ⟨hcnot, hnd⟩
      have hrec := createCodes_nodup rest (c :: existing) cs hnd' hcs
      subst hcodes
      have hperm : (cs ++ c :: existing).Perm (c :: (cs ++ existing)) :=
        List.perm_middle
      simpa using hperm.nodup hrec

/-- C4 counterexample: the generated code places a hyphen between the slug
prefix and the hex suffix, so it is not the prefix directly followed by 4
hexadecimal characters as the claim states. -/
theorem short_code_format_counterexample :
    genShortCode "abc" [] ["0a1b"] = some "abc-0a1b"
    ∧ ¬ specClaimedCodeFormat "abc" "abc-0a1b" := by decide

/-- C4 amended: each generated code is fresh (so codes never collide across
any number of creations, shown by the sequential-creation conjunct) and
equals the lowercasing of the slug prefix, a hyphen, and one 4-hex-digit
suffix drawn from the random stream. -/
theorem short_code_generation :
    (∀ (name : String) (existing sufs : List String) (code : String),
      (∀ s ∈ sufs, s.length = 4 ∧ ∀ c ∈ s.data, isHexDigit c) →
      genShortCode name existing sufs = some code →
        code ∉ existing
        ∧ ∃ s ∈ sufs, s.length = 4 ∧ (∀ c ∈ s.data, isHexDigit c)
            ∧ code = mkShortCode name s)
    ∧ ∀ (specs : List (String × List String)) (existing codes : List String),
        existing.Nodup → createCodes specs existing = some codes →
        (codes ++ existing).Nodup := by
  constructor
  · intro name existing sufs code hs h
    obtain ⟨h1, s, hsmem, heq⟩ := genShortCode_spec sufs name existing code h
    exact ⟨h1, s, hsmem, (hs s hsmem).1, (hs s hsmem).2, heq⟩
  · intro specs existing codes hnd h
    exact createCodes_nodup specs existing codes hnd h

theorem short_code_generation_witness :
    ("abc-0a1b" ∉ ([] : List String)
      ∧ ∃ s ∈ ["0a1b"], s.length = 4 ∧ (∀ c ∈ s.data, isHexDigit c)
          ∧ "abc-0a1b" = mkShortCode "abc" s)
    ∧ (["abc-0a1b", "abc-ffff"] ++ ([] : List String)).Nodup :=
  ⟨short_code_generation.1 "abc" [] ["0a1b"] "abc-0a1b"
      (by decide) (by decide),
    short_code_generation.2 [("abc", ["0a1b"]), ("abc", ["0a1b", "ffff"])]
      [] ["abc-0a1b", "abc-ffff"] (by decide) (by decide)⟩

theorem shoppingListRows_empty_of_no_cart (db : DB) (u : Nat)
    (h : ∀ c ∈ db.shopping_carts, c.user ≠ u) :
    shoppingListRows db u = [] := by
  have hf : db.shopping_carts.filter (fun c => c.user = u) = [] := by
    rw [List.filter_eq_nil_iff]
    intro c hc
    simp [h c hc]
  have hj : cartJoin db u = [] := by
    unfold cartJoin
    rw [hf]
    rfl
  unfold shoppingListRows keyedAmounts
  rw [hj]
  rfl

/-- C6: an empty cart (or an aggregation yielding no rows) makes the export
endpoint answer the explicit 200 "Shopping list is empty" message rather
than a rendered document; a non-empty aggregation never yields that
message. -/
theorem export_empty_signal (db : DB) (u : UserRow)
    (formatParam : Option String) :
    ((∀ c ∈ db.shopping_carts, c.user ≠ u.id) →
      export_shopping_list db u formatParam
        = .jsonMessage "Shopping list is empty" 200)
    ∧ (shoppingListRows db u.id = [] →
      export_shopping_list db u formatParam
        = .jsonMessage "Shopping list is empty" 200)
    ∧ (shoppingListRows db u.id ≠ [] →
      ∀ m s, export_shopping_list db u formatParam ≠ .jsonMessage m s) := by
  refine ⟨?_, ?_, ?_⟩
  · intro h
    have hrows := shoppingListRows_empty_of_no_cart db u.id h
    simp [export_shopping_list, hrows]
  · intro h
    simp [export_shopping_list, h]
  · intro h m s
    have hne : (shoppingListRows db u.id).isEmpty = false := by
      cases hrows : shoppingListRows db u.id with
      | nil => exact absurd hrows h
      | cons a l => rfl
    by_cases hf : (formatParam.getD "pdf") = "txt"
    · simp [export_shopping_list, hne, hf]
    · simp [export_shopping_list, hne, hf]

theorem export_empty_signal_witness :
    export_shopping_list ⟨[], [], []⟩ ⟨7, "alice", "", ""⟩ none
      = .jsonMessage "Shopping list is empty" 200 :=
  (export_empty_signal ⟨[], [], []⟩ ⟨7, "alice", "", ""⟩ none).1 (by decide)

/-- C9: for a non-empty aggregation, format "txt" yields the text document
and any other request (including the absent parameter whose default is
"pdf") yields the paged document; the attachment filenames are the fixed
constants `shopping_list.txt` / `shopping_list.pdf` for every user and
request. -/
theorem export_format_dispatch (db : DB) (u : UserRow)
    (formatParam : Option String)
    (h : shoppingListRows db u.id ≠ []) :
    (formatParam = some "txt" →
      export_shopping_list db u formatParam
        = .txt (generate_text_shopping_list (shoppingListRows db u.id) u))
    ∧ (formatParam ≠ some "txt" →
      export_shopping_list db u formatParam
        = .pdf (generate_pdf_shopping_list (shoppingListRows db u.id) u))
    ∧ (generate_text_shopping_list
        (shoppingListRows db u.id) u).content_disposition
      = "attachment; filename=\"shopping_list.txt\""
    ∧ (generate_pdf_shopping_list
        (shoppingListRows db u.id) u).content_disposition
      = "attachment; filename=\"shopping_list.pdf\"" := by
  have hne : (shoppingListRows db u.id).isEmpty = false := by
    cases hrows : shoppingListRows db u.id with
    | nil => exact absurd hrows h
    | cons a l => rfl
  refine ⟨?_, ?_, rfl, rfl⟩
  · intro hf
    subst hf
    simp [export_shopping_list, hne]
  · intro hf
    have hval : ¬ (formatParam.getD "pdf" = "txt") := by
      cases formatParam with
      | none => decide
      | some s =>
        simp only [Option.getD_some]
        intro hs
        exact hf (by rw [hs])
    simp [export_shopping_list, hne, hval]

theorem export_format_dispatch_witness :
    (export_shopping_list exDB ⟨7, "alice", "", ""⟩ (some "txt")
      = .txt (generate_text_shopping_list (shoppingListRows exDB 7)
          ⟨7, "alice", "", ""⟩))
    ∧ (export_shopping_list exDB ⟨7, "alice", "", ""⟩ none
      = .pdf (generate_pdf_shopping_list (shoppingListRows exDB 7)
          ⟨7, "alice", "", ""⟩)) :=
  ⟨(export_format_dispatch exDB ⟨7, "alice", "", ""⟩ (some "txt")
      (by decide)).1 rfl,
    (export_format_dispatch exDB ⟨7, "alice", "", ""⟩ none
      (by decide)).2.1 (by decide)⟩

theorem digitChar_isDigit {m : Nat} (h : m < 10) :
    (Nat.digitChar m).isDigit = true := by
  interval_cases m <;> decide

theorem toDigitsCore_digits :
    ∀ (fuel n : Nat) (acc : List Char),
      (∀ c ∈ acc, c.isDigit = true) →
      ∀ c ∈ Nat.toDigitsCore 10 fuel n acc, c.isDigit = true
  | 0, n, acc, hacc => by
    intro c hc
    simp only [Nat.toDigitsCore] at hc
    exact hacc c hc
  | fuel + 1, n, acc, hacc => by
    intro c hc
    simp only [Nat.toDigitsCore] at hc
    have hd : (Nat.digitChar (n % 10)).isDigit = true :=
      digitChar_isDigit (Nat.mod_lt _ (by norm_num))
    have hacc' : ∀ c ∈ Nat.digitChar (n % 10) :: acc, c.isDigit = true := by
      intro c hc
      rcases List.mem_cons.1 hc with h | h
      · rw [h]; exact hd
      · exact hacc c h
    by_cases h0 : n / 10 = 0
    · rw [if_pos h0] at hc
      exact hacc' c hc
    · rw [if_neg h0] at hc
      exact toDigitsCore_digits fuel (n / 10) _ hacc' c hc

theorem natRepr_digits (n : Nat) :
    ∀ c ∈ (Nat.repr n).data, c.isDigit = true := by
  intro c hc
  have hdata : (Nat.repr n).data = Nat.toDigits 10 n := rfl
  rw [hdata] at hc
  unfold Nat.toDigits at hc
  exact toDigitsCore_digits (n + 1) n [] (by simp) c hc

/-- C8 counterexample: the rendered body is not the claimed sequence of
header line, separator line and item lines joined by single newlines — the
header and separator lines each carry their own trailing newline, so a
blank line follows each of them. -/
theorem text_rendering_counterexample :
    (generate_text_shopping_list [⟨"flour", "g", 350⟩]
        ⟨1, "alice", "", ""⟩).body
      ≠ specClaimedTextBody [⟨"flour", "g", 350⟩] ⟨1, "alice", "", ""⟩ := by
  decide

/-- C8 amended: for a non-empty aggregation the body is the header line
naming the user, a blank line, a separator line of '=' repeated to the
stripped header's length, a blank line, then one line per ingredient in
input order; totals are rendered as decimal digit strings (never with a
decimal point). -/
theorem text_rendering_structure (components : List AggRow) (user : UserRow)
    (h : components ≠ []) :
    (generate_text_shopping_list components user).body
      = ("Shopping list for user: " ++ displayName user ++ "\n") ++ "\n"
        ++ (String.mk (List.replicate
            (stripStr ("Shopping list for user: "
              ++ displayName user ++ "\n")).length '=') ++ "\n") ++ "\n"
        ++ joinLines (components.map shoppingItemLine)
    ∧ ∀ i ∈ components, ∀ c ∈ (Nat.repr i.total).data, c.isDigit = true := by
  constructor
  · cases components with
    | nil => exact absurd rfl h
    | cons a l =>
      simp [generate_text_shopping_list, joinLines, String.append_assoc]
  · intro i _
    exact natRepr_digits i.total

theorem text_rendering_structure_witness :
    ((generate_text_shopping_list [⟨"flour", "g", 350⟩]
        ⟨1, "alice", "", ""⟩).body
      = ("Shopping list for user: " ++ displayName ⟨1, "alice", "", ""⟩
          ++ "\n") ++ "\n"
        ++ (String.mk (List.replicate
            (stripStr ("Shopping list for user: "
              ++ displayName ⟨1, "alice", "", ""⟩ ++ "\n")).length '=')
          ++ "\n") ++ "\n"
        ++ joinLines ([⟨"flour", "g", 350⟩].map shoppingItemLine))
    ∧ ∀ i ∈ [(⟨"flour", "g", 350⟩ : AggRow)],
        ∀ c ∈ (Nat.repr i.total).data, c.isDigit = true :=
  text_rendering_structure [⟨"flour", "g", 350⟩] ⟨1, "alice", "", ""⟩
    (by decide)

theorem resolve_short_link_always_field_error_witness :
    resolve_short_link [⟨1, "recipe-0a1b"⟩] "recipe-0a1b" = .fieldError :=
  resolve_short_link_always_field_error [⟨1, "recipe-0a1b"⟩] "recipe-0a1b"

theorem self_follow_always_validation_witness :
    (∃ e, followCreate [(3, 4)] 3 3 = .error e ∧ followErrorStatus e = 400)
    ∧ followCreateState [(3, 4)] 3 3 = [(3, 4)]
    ∧ ∀ s, followCreate [(3, 4)] 3 3 ≠ .ok s :=
  self_follow_always_validation [(3, 4)] 3
